import Mathlib

/-!
Shallow embedding of the shipping-calculator core
(internal/validator/shipping.go and internal/service/shipping.go).

Go strings are modelled as Lean `String` (sequences of Unicode scalar
values); Go's byte-oriented `len` is recovered via UTF-8 sizes.
Go `float64` arithmetic is modelled exactly over `ℚ`.
A Go `error` result is `Option String` (`none` = nil error); the
service entry point returns `Except String Response`.
-/

namespace Shipping

/-! ### Constants (internal/validator/shipping.go, internal/service/shipping.go) -/

def maxVolumeCm3 : ℚ := 15000
def minWeight : ℚ := 0
def zipcodeLength : Nat := 8
def minZipcodeLength : Nat := 4

def baseCostCents : ℚ := 1000
def weightSurchargeRate : ℚ := 0.10
def weightUnit : ℚ := 0.5
def volumeSurchargeRate : ℚ := 0.05
def volumeUnit : ℚ := 1000
def expressSurchargeRate : ℚ := 0.50
def standardDeliveryDays : Nat := 2
def expressDeliveryDays : Nat := 1

/-! ### Data model (internal/model) -/

structure Dimensions where
  length : ℚ
  width : ℚ
  height : ℚ
  deriving DecidableEq, Repr

structure CalculateShippingRequest where
  originZipcode : String
  destinationZipcode : String
  weight : ℚ
  dimensions : Dimensions
  isExpress : Bool
  deriving DecidableEq, Repr

structure ShippingCalculationDetails where
  baseCost : ℚ
  weightSurcharge : ℚ
  volumeSurcharge : ℚ
  expressSurcharge : ℚ
  totalCost : ℚ
  estimatedDays : Nat
  deriving DecidableEq, Repr

structure ShippingOption where
  service : String
  cost : ℚ
  time : String
  deriving DecidableEq, Repr

structure CalculateShippingResponse where
  shippingCost : ℚ
  estimatedDeliveryTime : String
  availableServices : List String
  shippingOptions : List ShippingOption
  deriving DecidableEq, Repr

/-! ### String helpers

`normalizeZip` embeds
`strings.ReplaceAll(strings.ReplaceAll(z, "-", ""), " ", "")`:
removing all hyphens and then all spaces is removing every character
that is a hyphen or a space (both are single ASCII characters, so the
byte-level replacement is character-level).  `goStrLen` is Go's `len`
on a (valid-UTF-8) string: the sum of the UTF-8 sizes of its runes. -/

def normalizeZip (s : String) : String :=
  String.mk (s.toList.filter (fun c => ¬ (c = '-' ∨ c = ' ')))

def goStrLen (s : String) : Nat :=
  s.toList.foldl (fun a c => a + c.utf8Size) 0

/-- The `Nd` (decimal number) ranges of Go's `unicode` package
(unicode/tables.go, `_Nd`), as closed codepoint intervals.  The repo's
Dockerfile pins `golang:1.24`, whose `unicode` tables are Unicode
15.0.0; this includes the Kawi (U+11F50..U+11F59) and Nag Mundari
(U+1E4F0..U+1E4F9) digits added in that version. -/
def ndRanges : List (Nat × Nat) :=
  [(0x0030, 0x0039), (0x0660, 0x0669), (0x06f0, 0x06f9), (0x07c0, 0x07c9),
   (0x0966, 0x096f), (0x09e6, 0x09ef), (0x0a66, 0x0a6f), (0x0ae6, 0x0aef),
   (0x0b66, 0x0b6f), (0x0be6, 0x0bef), (0x0c66, 0x0c6f), (0x0ce6, 0x0cef),
   (0x0d66, 0x0d6f), (0x0de6, 0x0def), (0x0e50, 0x0e59), (0x0ed0, 0x0ed9),
   (0x0f20, 0x0f29), (0x1040, 0x1049), (0x1090, 0x1099), (0x17e0, 0x17e9),
   (0x1810, 0x1819), (0x1946, 0x194f), (0x19d0, 0x19d9), (0x1a80, 0x1a89),
   (0x1a90, 0x1a99), (0x1b50, 0x1b59), (0x1bb0, 0x1bb9), (0x1c40, 0x1c49),
   (0x1c50, 0x1c59), (0xa620, 0xa629), (0xa8d0, 0xa8d9), (0xa900, 0xa909),
   (0xa9d0, 0xa9d9), (0xa9f0, 0xa9f9), (0xaa50, 0xaa59), (0xabf0, 0xabf9),
   (0xff10, 0xff19), (0x104a0, 0x104a9), (0x10d30, 0x10d39),
   (0x11066, 0x1106f), (0x110f0, 0x110f9), (0x11136, 0x1113f),
   (0x111d0, 0x111d9), (0x112f0, 0x112f9), (0x11450, 0x11459),
   (0x114d0, 0x114d9), (0x11650, 0x11659), (0x116c0, 0x116c9),
   (0x11730, 0x11739), (0x118e0, 0x118e9), (0x11950, 0x11959),
   (0x11c50, 0x11c59), (0x11d50, 0x11d59), (0x11da0, 0x11da9),
   (0x11f50, 0x11f59), (0x16a60, 0x16a69), (0x16ac0, 0x16ac9),
   (0x16b50, 0x16b59), (0x1d7ce, 0x1d7ff), (0x1e140, 0x1e149),
   (0x1e2f0, 0x1e2f9), (0x1e4f0, 0x1e4f9), (0x1e950, 0x1e959),
   (0x1fbf0, 0x1fbf9)]

/-- Go's `unicode.IsDigit`: for Latin-1 runes exactly ASCII `0`-`9`,
otherwise membership in the `Nd` category table. -/
def goIsDigit (c : Char) : Bool :=
  if c.toNat ≤ 0xFF then decide (48 ≤ c.toNat ∧ c.toNat ≤ 57)
  else ndRanges.any (fun p => decide (p.1 ≤ c.toNat ∧ c.toNat ≤ p.2))

/-! ### Validator (internal/validator/shipping.go) -/

/-- `ValidateZipcode`: empty check, normalization, byte-length bounds
4..8, then a manual per-rune `unicode.IsDigit` scan.  The Go loop
returns the format error on the first non-digit rune; since the error
is the same for every rune this is the `all` check. -/
def ValidateZipcode (zipcode fieldName : String) : Option String :=
  if zipcode = "" then some (fieldName ++ " is required")
  else
    let normalized := normalizeZip zipcode
    if goStrLen normalized < minZipcodeLength ∨ zipcodeLength < goStrLen normalized then
      some (fieldName ++ " must be a valid zipcode format (4-8 digits)")
    else if normalized.toList.all goIsDigit then none
    else some (fieldName ++ " must be a valid zipcode format (4-8 digits)")

def ValidateWeight (weight : ℚ) : Option String :=
  if weight ≤ minWeight then some "weight must be greater than 0" else none

/-- Rendering of Go's `%.2f` for the exact rational standing in for a
`float64`: sign, integer part, and the fraction rounded to two decimal
places (ties away from zero; every value the program formats here has
an exact two-decimal representation, so the tie rule is never
exercised). -/
def fmt2 (q : ℚ) : String :=
  let n : Int := Int.floor (q * 100 + 1/2)
  let a : Nat := n.natAbs
  (if n < 0 then "-" else "") ++ Nat.repr (a / 100) ++ "." ++
    (if a % 100 < 10 then "0" else "") ++ Nat.repr (a % 100)

def ValidateDimensions (length width height : ℚ) : Option String :=
  if length ≤ 0 then some "dimensions.length must be positive"
  else if width ≤ 0 then some "dimensions.width must be positive"
  else if height ≤ 0 then some "dimensions.height must be positive"
  else
    let volume := length * width * height
    if volume > maxVolumeCm3 then
      some ("package volume (" ++ fmt2 volume ++ " cm³) exceeds maximum allowed volume ("
        ++ fmt2 maxVolumeCm3 ++ " cm³)")
    else none

def CalculateVolume (length width height : ℚ) : ℚ :=
  length * width * height

/-! ### strconv.ParseFloat (strconv/atof.go)

`GoFloat` is the observable value space of a `float64`: a finite value
(kept as an exact rational — rounding to the nearest double, including
underflow to zero, is the one idealization, consistent with the exact
treatment of all other float arithmetic in this file), the two
infinities, and NaN.  `parseFloat s = none` models a non-nil `error`
from `strconv.ParseFloat(s, 64)`: either a syntax error or the
`ErrRange` overflow error (Go returns `±Inf, ErrRange` exactly when
the decimal value rounds to an infinity, i.e. when its magnitude is at
least `2^1024 - 2^970`; the caller treats any non-nil error as a parse
failure).  `some v` models a nil error with value `v`: this includes
the `Inf`/`Infinity`/`NaN` specials, hexadecimal floats, and
digit-separating underscores, all accepted by Go. -/

inductive GoFloat where
  | finite (q : ℚ)
  | posInf
  | negInf
  | nan
  deriving DecidableEq, Repr

/-- Go's byte-level `lower` (strconv): set bit 5, mapping `A`-`Z` to
`a`-`z` and leaving ASCII digits and lowercase letters unchanged. -/
def goLower (c : Char) : Char :=
  Char.ofNat (c.toNat ||| 0x20)

/-- `special` (strconv/atof.go): the whole string is, optionally
signed and case-insensitively, `inf` or `infinity`; or, unsigned,
`nan`.  (ParseFloat requires the entire input to be consumed, so the
prefix match of the Go code becomes a whole-string match here.) -/
def special (cs : List Char) : Option GoFloat :=
  match cs with
  | [] => none
  | c :: rest =>
    let neg := c = '-'
    let signed := c = '+' ∨ c = '-'
    let body := if signed then rest else cs
    let low := body.map goLower
    if low = ['i', 'n', 'f'] ∨ low = ['i', 'n', 'f', 'i', 'n', 'i', 't', 'y'] then
      some (if neg then GoFloat.negInf else GoFloat.posInf)
    else if ¬ signed ∧ low = ['n', 'a', 'n'] then some GoFloat.nan
    else none

/-- `underscoreOK` (strconv/atoi.go): underscores may appear only
between digits or between a base prefix and a digit.  The fold carries
Go's `saw` state (`^` start, `0` digit/prefix, `_` underscore,
`!` other) plus a failure state `F` for the early `return false`. -/
def underscoreOK (cs0 : List Char) : Bool :=
  let cs1 := match cs0 with
    | c :: rest => if c = '+' ∨ c = '-' then rest else cs0
    | [] => cs0
  let prefixed : Bool × Char × List Char :=
    match cs1 with
    | c0 :: c1 :: rest =>
      if c0 = '0' ∧ (goLower c1 = 'b' ∨ goLower c1 = 'o' ∨ goLower c1 = 'x') then
        (goLower c1 = 'x', '0', rest)
      else (false, '^', cs1)
    | _ => (false, '^', cs1)
  let hex := prefixed.1
  let step : Char → Char → Char := fun saw c =>
    if saw = 'F' then 'F'
    else if c.isDigit ∨ (hex ∧ ('a' ≤ goLower c ∧ goLower c ≤ 'f')) then '0'
    else if c = '_' then (if saw = '0' then '_' else 'F')
    else if saw = '_' then 'F'
    else '!'
  let final := prefixed.2.2.foldl step prefixed.2.1
  final ≠ '_' ∧ final ≠ 'F'

def digitsToNat (cs : List Char) : Nat :=
  cs.foldl (fun a c => 10 * a + (c.toNat - 48)) 0

/-- Exponent digits with Go's saturation: `readFloat` stops growing
the exponent once it reaches 10000 (further digits are consumed but
ignored). -/
def expDigitsVal (cs : List Char) : Nat :=
  cs.foldl (fun e c => if e < 10000 then 10 * e + (c.toNat - 48) else e) 0

/-- An optional (`required = false`, decimal `e`/`E`) or mandatory
(`required = true`, hexadecimal `p`/`P`) exponent part covering the
whole remainder of the string: optional sign, then at least one
decimal digit. -/
def parseExpPart (expL expU : Char) ( required : Bool) (cs : List Char) : Option Int :=
  match cs with
  | [] => if required then none else some 0
  | c :: rest =>
    if c = expL ∨ c = expU then
      let signedRest : Bool × List Char :=
        match rest with
        | '+' :: r => (false, r)
        | '-' :: r => (true, r)
        | r => (false, r)
      if signedRest.2 = [] ∨ ¬ signedRest.2.all Char.isDigit then none
      else some (if signedRest.1 then -(expDigitsVal signedRest.2 : Int)
                 else (expDigitsVal signedRest.2 : Int))
    else none

/-- A decimal mantissa (digits with an optional single point, at least
one digit) followed by an optional exponent: the value is
`M × 10^k`. -/
def parseDecCore (cs : List Char) : Option (Nat × Int) :=
  let intPart := cs.takeWhile Char.isDigit
  let rest := cs.dropWhile Char.isDigit
  match rest with
  | '.' :: rest2 =>
    let fracPart := rest2.takeWhile Char.isDigit
    let rest3 := rest2.dropWhile Char.isDigit
    if intPart = [] ∧ fracPart = [] then none
    else (parseExpPart 'e' 'E' false rest3).map
      (fun e => (digitsToNat (intPart ++ fracPart), e - (fracPart.length : Int)))
  | _ =>
    if intPart = [] then none
    else (parseExpPart 'e' 'E' false rest).map (fun e => (digitsToNat intPart, e))

def isHexDigitChar (c : Char) : Bool :=
  c.isDigit || decide ('a' ≤ c ∧ c ≤ 'f') || decide ('A' ≤ c ∧ c ≤ 'F')

def hexVal (c : Char) : Nat :=
  if c.isDigit then c.toNat - 48
  else if decide ('a' ≤ c ∧ c ≤ 'f') then c.toNat - 87
  else c.toNat - 55

def hexDigitsToNat (cs : List Char) : Nat :=
  cs.foldl (fun a c => 16 * a + hexVal c) 0

/-- A hexadecimal mantissa (after the `0x` prefix) with its mandatory
binary exponent: four bits per hex fraction digit, so the value is
`M × 2^(e - 4f)`. -/
def parseHexCore (cs : List Char) : Option (Nat × Int) :=
  let intPart := cs.takeWhile isHexDigitChar
  let rest := cs.dropWhile isHexDigitChar
  match rest with
  | '.' :: rest2 =>
    let fracPart := rest2.takeWhile isHexDigitChar
    let rest3 := rest2.dropWhile isHexDigitChar
    if intPart = [] ∧ fracPart = [] then none
    else (parseExpPart 'p' 'P' true rest3).map
      (fun e => (hexDigitsToNat (intPart ++ fracPart), e - 4 * (fracPart.length : Int)))
  | _ =>
    if intPart = [] then none
    else (parseExpPart 'p' 'P' true rest).map (fun e => (hexDigitsToNat intPart, e))

/-- Smallest magnitude that rounds (to nearest, ties to even) beyond
the largest finite `float64`, i.e. the overflow threshold
`2^1024 - 2^970 = 2^970·(2^54 - 1)`: `ParseFloat` returns `ErrRange`
exactly when the decimal value's magnitude reaches it.  Written as the
explicit 309-digit numeral so that concrete parses evaluate by
`rfl`/`decide` (the equality with the closed form is
`ovfThresholdNum_eq` below). -/
def ovfThresholdNum : Nat :=
  179769313486231580793728971405303415079934132710037826936173778980444968292764750946649017977587207096330286416692887910946555547851940402630657488671505820681908902000708383676273854845817711531764475730270069855571366959622842914819860834936475292719074168444365510704342711559699508093042880177904174497792

/-- Whether `M × B^k` (absolute value of the parsed number) overflows
`float64`, compared exactly over the integers. -/
def sciOverflow (B M : Nat) (k : Int) : Bool :=
  if M = 0 then false
  else if 0 ≤ k then decide (ovfThresholdNum ≤ M * B ^ k.toNat)
  else decide (ovfThresholdNum * B ^ (-k).toNat ≤ M)

/-- The exact rational `±(M × B^k)`. -/
def sciValue (B : Nat) (neg : Bool) (M : Nat) (k : Int) : ℚ :=
  let a : ℚ := if 0 ≤ k then ((M * B ^ k.toNat : ℕ) : ℚ)
               else (M : ℚ) / ((B ^ (-k).toNat : ℕ) : ℚ)
  if neg then -a else a

def mkFinite (B : Nat) (neg : Bool) (p : Nat × Int) : Option GoFloat :=
  if sciOverflow B p.1 p.2 then none
  else some (GoFloat.finite (sciValue B neg p.1 p.2))

/-- `strconv.ParseFloat(s, 64)` with the whole string consumed:
specials first, then the underscore legality gate, then the sign and
the hexadecimal (`0x`/`0X`) or decimal number with the overflow
check. -/
def parseFloat (s : String) : Option GoFloat :=
  match special s.toList with
  | some v => some v
  | none =>
    if underscoreOK s.toList then
      let cs := s.toList.filter (fun c => c ≠ '_')
      let signedBody : Bool × List Char :=
        match cs with
        | '+' :: rest => (false, rest)
        | '-' :: rest => (true, rest)
        | rest => (false, rest)
      let neg := signedBody.1
      let isHex : Bool :=
        match signedBody.2 with
        | '0' :: c :: _ => goLower c = 'x'
        | _ => false
      if isHex then
        match signedBody.2 with
        | _ :: _ :: rest => (parseHexCore rest).bind (mkFinite 2 neg)
        | _ => none
      else (parseDecCore signedBody.2).bind (mkFinite 10 neg)
    else none

/-- The finite restriction of `parseFloat`, used by the rational-valued
pipeline below: a parsed value when `ParseFloat` returns a nil error
and a finite value, `none` on any error and on the `±Inf`/`NaN`
specials.  Zipcode-validated strings only ever produce finite parses
(their normalized forms consist of digit characters, never the
letter/sign shapes of the specials), where this agrees with
`parseFloat`; see `calculateBaseCostGo_agree`. -/
def parseFloatFin (s : String) : Option ℚ :=
  match parseFloat s with
  | some (GoFloat.finite q) => some q
  | _ => none

/-! ### float64 arithmetic on `GoFloat`

IEEE 754 semantics on the special values (NaN propagates and is
incomparable; infinities follow the sign rules; `∞ - ∞`, `0 × ∞`,
`∞ / ∞` and `0 / 0` are NaN), with finite arithmetic exact in `ℚ`.
`ℚ` has a single zero, so the `-0.0` sign distinctions are not
represented (no operation of this program reaches a cell where that
sign matters). -/

def GoFloat.isFinite : GoFloat → Bool
  | GoFloat.finite _ => true
  | _ => false

def GoFloat.neg : GoFloat → GoFloat
  | GoFloat.finite q => GoFloat.finite (-q)
  | GoFloat.posInf => GoFloat.negInf
  | GoFloat.negInf => GoFloat.posInf
  | GoFloat.nan => GoFloat.nan

def GoFloat.sub : GoFloat → GoFloat → GoFloat
  | GoFloat.nan, _ => GoFloat.nan
  | _, GoFloat.nan => GoFloat.nan
  | GoFloat.posInf, GoFloat.posInf => GoFloat.nan
  | GoFloat.posInf, _ => GoFloat.posInf
  | GoFloat.negInf, GoFloat.negInf => GoFloat.nan
  | GoFloat.negInf, _ => GoFloat.negInf
  | GoFloat.finite _, GoFloat.posInf => GoFloat.negInf
  | GoFloat.finite _, GoFloat.negInf => GoFloat.posInf
  | GoFloat.finite a, GoFloat.finite b => GoFloat.finite (a - b)

def GoFloat.add : GoFloat → GoFloat → GoFloat
  | GoFloat.nan, _ => GoFloat.nan
  | _, GoFloat.nan => GoFloat.nan
  | GoFloat.posInf, GoFloat.negInf => GoFloat.nan
  | GoFloat.posInf, _ => GoFloat.posInf
  | GoFloat.negInf, GoFloat.posInf => GoFloat.nan
  | GoFloat.negInf, _ => GoFloat.negInf
  | GoFloat.finite _, GoFloat.posInf => GoFloat.posInf
  | GoFloat.finite _, GoFloat.negInf => GoFloat.negInf
  | GoFloat.finite a, GoFloat.finite b => GoFloat.finite (a + b)

def GoFloat.mul : GoFloat → GoFloat → GoFloat
  | GoFloat.nan, _ => GoFloat.nan
  | _, GoFloat.nan => GoFloat.nan
  | GoFloat.posInf, GoFloat.posInf => GoFloat.posInf
  | GoFloat.posInf, GoFloat.negInf => GoFloat.negInf
  | GoFloat.negInf, GoFloat.posInf => GoFloat.negInf
  | GoFloat.negInf, GoFloat.negInf => GoFloat.posInf
  | GoFloat.posInf, GoFloat.finite q =>
    if q = 0 then GoFloat.nan else if q < 0 then GoFloat.negInf else GoFloat.posInf
  | GoFloat.negInf, GoFloat.finite q =>
    if q = 0 then GoFloat.nan else if q < 0 then GoFloat.posInf else GoFloat.negInf
  | GoFloat.finite q, GoFloat.posInf =>
    if q = 0 then GoFloat.nan else if q < 0 then GoFloat.negInf else GoFloat.posInf
  | GoFloat.finite q, GoFloat.negInf =>
    if q = 0 then GoFloat.nan else if q < 0 then GoFloat.posInf else GoFloat.negInf
  | GoFloat.finite a, GoFloat.finite b => GoFloat.finite (a * b)

def GoFloat.div : GoFloat → GoFloat → GoFloat
  | GoFloat.nan, _ => GoFloat.nan
  | _, GoFloat.nan => GoFloat.nan
  | GoFloat.posInf, GoFloat.posInf => GoFloat.nan
  | GoFloat.posInf, GoFloat.negInf => GoFloat.nan
  | GoFloat.negInf, GoFloat.posInf => GoFloat.nan
  | GoFloat.negInf, GoFloat.negInf => GoFloat.nan
  | GoFloat.posInf, GoFloat.finite q => if q < 0 then GoFloat.negInf else GoFloat.posInf
  | GoFloat.negInf, GoFloat.finite q => if q < 0 then GoFloat.posInf else GoFloat.negInf
  | GoFloat.finite _, GoFloat.posInf => GoFloat.finite 0
  | GoFloat.finite _, GoFloat.negInf => GoFloat.finite 0
  | GoFloat.finite a, GoFloat.finite b =>
    if b = 0 then
      (if a = 0 then GoFloat.nan else if a < 0 then GoFloat.negInf else GoFloat.posInf)
    else GoFloat.finite (a / b)

def GoFloat.flt : GoFloat → GoFloat → Bool
  | GoFloat.nan, _ => false
  | _, GoFloat.nan => false
  | GoFloat.negInf, GoFloat.negInf => false
  | GoFloat.negInf, _ => true
  | GoFloat.posInf, _ => false
  | GoFloat.finite _, GoFloat.negInf => false
  | GoFloat.finite _, GoFloat.posInf => true
  | GoFloat.finite a, GoFloat.finite b => decide (a < b)

/-! ### Pricing engine (internal/service/shipping.go) -/

/-- `calculateBaseCost` over the full `float64` value space: normalize
both zipcodes, parse with `parseFloat`, fall back to the flat base
cost on any parse error, otherwise price by the absolute difference.
This is the faithful model of the Go function; the rational-valued
`calculateBaseCost` below is its restriction to finite parses, which
is all the validated pipeline can reach (`calculateBaseCostGo_agree`). -/
def calculateBaseCostGo (originZipcode destinationZipcode : String) : GoFloat :=
  let originNormalized := normalizeZip originZipcode
  let destNormalized := normalizeZip destinationZipcode
  match parseFloat originNormalized, parseFloat destNormalized with
  | some originNum, some destNum =>
    let d0 := originNum.sub destNum
    let distance := if d0.flt (GoFloat.finite 0) then d0.neg else d0
    if distance.flt (GoFloat.finite 1000) then GoFloat.finite baseCostCents
    else (GoFloat.finite baseCostCents).mul
      ((GoFloat.finite 1).add (distance.div (GoFloat.finite 10000)))
  | _, _ => GoFloat.finite baseCostCents

def calculateBaseCost (originZipcode destinationZipcode : String) : ℚ :=
  let originNormalized := normalizeZip originZipcode
  let destNormalized := normalizeZip destinationZipcode
  match parseFloatFin originNormalized, parseFloatFin destNormalized with
  | some originNum, some destNum =>
    let d0 := originNum - destNum
    let distance := if d0 < 0 then -d0 else d0
    if distance < 1000 then baseCostCents
    else baseCostCents * (1 + distance / 10000)
  | _, _ => baseCostCents

def calculateShippingDetails (baseCost weight volume : ℚ) (isExpress : Bool) :
    ShippingCalculationDetails :=
  let weightMultiplier := weight / weightUnit
  let weightSurcharge := baseCost * weightSurchargeRate * weightMultiplier
  let volumeMultiplier := volume / volumeUnit
  let volumeSurcharge := baseCost * volumeSurchargeRate * volumeMultiplier
  let subtotal := baseCost + weightSurcharge + volumeSurcharge
  let expressSurcharge := if isExpress then subtotal * expressSurchargeRate else 0
  let totalCost := subtotal + expressSurcharge
  let estimatedDays := if isExpress then expressDeliveryDays else standardDeliveryDays
  { baseCost := baseCost
    weightSurcharge := weightSurcharge
    volumeSurcharge := volumeSurcharge
    expressSurcharge := expressSurcharge
    totalCost := totalCost
    estimatedDays := estimatedDays }

/-! ### Response assembler (internal/service/shipping.go, buildResponse) -/

def buildResponse (details : ShippingCalculationDetails) (isExpress : Bool) :
    CalculateShippingResponse :=
  let standardCost := details.baseCost + details.weightSurcharge + details.volumeSurcharge
  let expressCost := standardCost * (1 + expressSurchargeRate)
  let selected : ℚ × String :=
    if isExpress then
      let t := Nat.repr expressDeliveryDays ++ " dia"
      let t := if expressDeliveryDays > 1 then Nat.repr expressDeliveryDays ++ " dias" else t
      (expressCost, t)
    else (standardCost, Nat.repr standardDeliveryDays ++ " dias")
  { shippingCost := selected.1
    estimatedDeliveryTime := selected.2
    availableServices := ["standard", "express"]
    shippingOptions :=
      [{ service := "standard", cost := standardCost,
         time := Nat.repr standardDeliveryDays ++ " dias" },
       { service := "express", cost := expressCost,
         time := Nat.repr expressDeliveryDays ++ " dia" }] }

/-! ### Service entry point (internal/service/shipping.go, CalculateShipping) -/

def CalculateShipping (req : CalculateShippingRequest) :
    Except String CalculateShippingResponse :=
  match ValidateZipcode req.originZipcode "origin_zipcode" with
  | some err => Except.error ("invalid origin_zipcode: " ++ err)
  | none =>
  match ValidateZipcode req.destinationZipcode "destination_zipcode" with
  | some err => Except.error ("invalid destination_zipcode: " ++ err)
  | none =>
  match ValidateWeight req.weight with
  | some err => Except.error ("invalid weight: " ++ err)
  | none =>
  let volume := CalculateVolume req.dimensions.length req.dimensions.width req.dimensions.height
  match ValidateDimensions req.dimensions.length req.dimensions.width req.dimensions.height with
  | some err => Except.error ("invalid dimensions: " ++ err)
  | none =>
  let baseCost := calculateBaseCost req.originZipcode req.destinationZipcode
  let details := calculateShippingDetails baseCost req.weight volume req.isExpress
  Except.ok (buildResponse details req.isExpress)

/-- Formalization of the claim's wording for zipcode acceptance (not of
the source): the normalized string consists of 4 to 8 ASCII decimal
digits — between 4 and 8 characters, every one an ASCII digit. -/
def claimAsciiZipFormat (s : String) : Prop :=
  minZipcodeLength ≤ (normalizeZip s).toList.length ∧
  (normalizeZip s).toList.length ≤ zipcodeLength ∧
  ∀ c ∈ (normalizeZip s).toList, c.isDigit = true

instance (s : String) : Decidable (claimAsciiZipFormat s) := by
  unfold claimAsciiZipFormat
  infer_instance

end Shipping

namespace Shipping

/-! ## Theorems -/

/-- C1: for every baseCost `b`, weight `w`, volume `v` and flag `e`,
`calculateShippingDetails` returns `weightSurcharge = b × 0.10 × (w / 0.5)`,
`volumeSurcharge = b × 0.05 × (v / 1000)`,
`expressSurcharge = (b + weightSurcharge + volumeSurcharge) × 0.50` if
expedited and `0` otherwise, and
`totalCost = b + weightSurcharge + volumeSurcharge + expressSurcharge`;
in particular when not expedited,
`totalCost = b * (1 + 0.10 * w / 0.5 + 0.05 * v / 1000)`. -/
theorem calculateShippingDetails_spec (b w v : ℚ) (e : Bool) :
    (calculateShippingDetails b w v e).weightSurcharge = b * 0.10 * (w / 0.5) ∧
    (calculateShippingDetails b w v e).volumeSurcharge = b * 0.05 * (v / 1000) ∧
    (calculateShippingDetails b w v e).expressSurcharge =
      (if e then
        (b + (calculateShippingDetails b w v e).weightSurcharge +
          (calculateShippingDetails b w v e).volumeSurcharge) * 0.50
       else 0) ∧
    (calculateShippingDetails b w v e).totalCost =
      b + (calculateShippingDetails b w v e).weightSurcharge +
        (calculateShippingDetails b w v e).volumeSurcharge +
        (calculateShippingDetails b w v e).expressSurcharge ∧
    (calculateShippingDetails b w v false).totalCost =
      b * (1 + 0.10 * w / 0.5 + 0.05 * v / 1000) := by
  cases e <;>
    refine ⟨?_, ?_, ?_, ?_, ?_⟩ <;>
      simp [calculateShippingDetails, weightSurchargeRate, weightUnit, volumeSurchargeRate,
        volumeUnit, expressSurchargeRate] <;>
      ring

/-- Helper: the overflow-threshold numeral is `2^970 * (2^54 - 1)`,
that is `2^1024 - 2^970`. -/
theorem ovfThresholdNum_eq : ovfThresholdNum = 2 ^ 970 * (2 ^ 54 - 1) := by
  norm_num [ovfThresholdNum]

/-- Helper: on finite operands the `GoFloat` operations are the exact
rational ones. -/
theorem GoFloat.sub_finite (a b : ℚ) :
    (GoFloat.finite a).sub (GoFloat.finite b) = GoFloat.finite (a - b) := rfl

theorem GoFloat.add_finite (a b : ℚ) :
    (GoFloat.finite a).add (GoFloat.finite b) = GoFloat.finite (a + b) := rfl

theorem GoFloat.mul_finite (a b : ℚ) :
    (GoFloat.finite a).mul (GoFloat.finite b) = GoFloat.finite (a * b) := rfl

theorem GoFloat.neg_finite (a : ℚ) :
    (GoFloat.finite a).neg = GoFloat.finite (-a) := rfl

theorem GoFloat.flt_finite (a b : ℚ) :
    (GoFloat.finite a).flt (GoFloat.finite b) = decide (a < b) := rfl

theorem GoFloat.div_finite (a b : ℚ) (hb : b ≠ 0) :
    (GoFloat.finite a).div (GoFloat.finite b) = GoFloat.finite (a / b) := by
  simp [GoFloat.div, hb]

/-- C2: `calculateBaseCost` normalizes both postal codes and parses
them with `ParseFloat`; when both parse to (finite) numbers it returns
exactly `1000` when the absolute difference is below `1000` and
exactly `1000 * (1 + distance / 10000)` otherwise; when either parse
fails — a syntax error or the `ErrRange` overflow — it returns exactly
`1000`: a silent fallback, never an error (the function is total by
type). -/
theorem calculateBaseCostGo_spec (o d : String) :
    (∀ q1 q2, parseFloat (normalizeZip o) = some (GoFloat.finite q1) →
        parseFloat (normalizeZip d) = some (GoFloat.finite q2) →
        calculateBaseCostGo o d =
          GoFloat.finite
            (if |q1 - q2| < 1000 then 1000 else 1000 * (1 + |q1 - q2| / 10000))) ∧
    ((parseFloat (normalizeZip o) = none ∨ parseFloat (normalizeZip d) = none) →
        calculateBaseCostGo o d = GoFloat.finite 1000) := by
  constructor
  · intro q1 q2 h1 h2
    simp only [calculateBaseCostGo, h1, h2, GoFloat.sub_finite, GoFloat.flt_finite,
      GoFloat.neg_finite, decide_eq_true_eq, baseCostCents]
    rcases lt_or_ge (q1 - q2) 0 with hneg | hpos
    · rw [if_pos hneg, abs_of_neg hneg]
      simp only [GoFloat.flt_finite, decide_eq_true_eq]
      by_cases hlt : -(q1 - q2) < 1000
      · rw [if_pos hlt, if_pos hlt]
      · rw [if_neg hlt, if_neg hlt, GoFloat.div_finite _ _ (by norm_num),
          GoFloat.add_finite, GoFloat.mul_finite]
    · rw [if_neg (not_lt.mpr hpos), abs_of_nonneg hpos]
      simp only [GoFloat.flt_finite, decide_eq_true_eq]
      by_cases hlt : q1 - q2 < 1000
      · rw [if_pos hlt, if_pos hlt]
      · rw [if_neg hlt, if_neg hlt, GoFloat.div_finite _ _ (by norm_num),
          GoFloat.add_finite, GoFloat.mul_finite]
  · rintro (h | h) <;>
      cases hp : parseFloat (normalizeZip o) <;>
        cases hq : parseFloat (normalizeZip d) <;>
          simp_all [calculateBaseCostGo, baseCostCents]

/-- Witness for C2 at concrete inputs: an underscored zipcode parses
(Go literal syntax) and is priced by the distance formula, and
unparseable postal codes fall back to the flat base cost. -/
theorem calculateBaseCostGo_spec_witness :
    calculateBaseCostGo "1_000" "9999" = GoFloat.finite (18999 / 10) ∧
    calculateBaseCostGo "abc" "def" = GoFloat.finite 1000 := by
  constructor
  · have h := (calculateBaseCostGo_spec "1_000" "9999").1 1000 9999 rfl rfl
    rw [h]
    have habs : |(1000 : ℚ) - 9999| = 8999 := by
      rw [abs_of_nonpos (by norm_num)]
      norm_num
    rw [habs]
    norm_num
  · exact (calculateBaseCostGo_spec "abc" "def").2 (Or.inl rfl)

/-- Helper: wherever both parses are finite or failing — in particular
on every zipcode-validated input, whose normalized form consists of
digit characters only and so can never be one of the letter- or
sign-led `inf`/`nan` special forms — the full `GoFloat` model and the
rational pipeline model of `calculateBaseCost` agree. -/
theorem calculateBaseCostGo_agree (o d : String)
    (h1 : ∀ v, parseFloat (normalizeZip o) = some v → v.isFinite = true)
    (h2 : ∀ v, parseFloat (normalizeZip d) = some v → v.isFinite = true) :
    calculateBaseCostGo o d = GoFloat.finite (calculateBaseCost o d) := by
  rcases hp : parseFloat (normalizeZip o) with _ | v1
  · have hfp : parseFloatFin (normalizeZip o) = none := by simp [parseFloatFin, hp]
    cases hq : parseFloatFin (normalizeZip d) <;>
      simp [calculateBaseCostGo, calculateBaseCost, hp, hfp, hq]
  · have hv1 := h1 v1 hp
    cases v1 with
    | posInf => simp [GoFloat.isFinite] at hv1
    | negInf => simp [GoFloat.isFinite] at hv1
    | nan => simp [GoFloat.isFinite] at hv1
    | finite q1 =>
      rcases hq : parseFloat (normalizeZip d) with _ | v2
      · have hfq : parseFloatFin (normalizeZip d) = none := by simp [parseFloatFin, hq]
        cases hfp : parseFloatFin (normalizeZip o) <;>
          simp [calculateBaseCostGo, calculateBaseCost, hp, hq, hfp, hfq]
      · have hv2 := h2 v2 hq
        cases v2 with
        | posInf => simp [GoFloat.isFinite] at hv2
        | negInf => simp [GoFloat.isFinite] at hv2
        | nan => simp [GoFloat.isFinite] at hv2
        | finite q2 =>
          have hfp : parseFloatFin (normalizeZip o) = some q1 := by simp [parseFloatFin, hp]
          have hfq : parseFloatFin (normalizeZip d) = some q2 := by simp [parseFloatFin, hq]
          simp only [calculateBaseCostGo, calculateBaseCost, hp, hq, hfp, hfq,
            GoFloat.sub_finite, GoFloat.flt_finite, GoFloat.neg_finite, decide_eq_true_eq]
          by_cases hneg : q1 - q2 < 0
          · rw [if_pos hneg, if_pos hneg]
            simp only [GoFloat.flt_finite, decide_eq_true_eq]
            by_cases hlt : -(q1 - q2) < 1000
            · rw [if_pos hlt, if_pos hlt]
            · rw [if_neg hlt, if_neg hlt, GoFloat.div_finite _ _ (by norm_num),
                GoFloat.add_finite, GoFloat.mul_finite]
          · rw [if_neg hneg, if_neg hneg]
            simp only [GoFloat.flt_finite, decide_eq_true_eq]
            by_cases hlt : q1 - q2 < 1000
            · rw [if_pos hlt, if_pos hlt]
            · rw [if_neg hlt, if_neg hlt, GoFloat.div_finite _ _ (by norm_num),
                GoFloat.add_finite, GoFloat.mul_finite]

/-- C9: `CalculateVolume` is the bare product, with no validation and
no error; negative inputs yield the (negative) product. -/
theorem CalculateVolume_spec (length width height : ℚ) :
    CalculateVolume length width height = length * width * height ∧
    CalculateVolume (-1) 2 3 = -6 :=
  ⟨rfl, by norm_num [CalculateVolume]⟩

/-- C10: for every pair of postal codes that passes zipcode validation,
`calculateBaseCost` returns at least the flat base cost `1000`: the
distance scaling never discounts below it. -/
theorem calculateBaseCost_lower_bound (o d f1 f2 : String)
    (h1 : ValidateZipcode o f1 = none) (h2 : ValidateZipcode d f2 = none) :
    1000 ≤ calculateBaseCost o d := by
  unfold calculateBaseCost baseCostCents
  cases hp : parseFloatFin (normalizeZip o) <;> cases hq : parseFloatFin (normalizeZip d) <;>
    simp only [hp, hq]
  · norm_num
  · norm_num
  · norm_num
  · split_ifs with hneg hlt hlt' <;> push_neg at * <;> try norm_num
    · linarith
    · linarith

/-- Witness for C10 at a concrete validated pair. -/
theorem calculateBaseCost_lower_bound_witness : 1000 ≤ calculateBaseCost "1414" "1428" :=
  calculateBaseCost_lower_bound "1414" "1428" "origin_zipcode" "destination_zipcode" rfl rfl


/-- C5 counterexample: the claim says `ValidateZipcode` succeeds exactly
when the normalized string is 4-8 ASCII decimal digits, but a string of
four ARABIC-INDIC digits (U+0660..U+0663, no ASCII digit at all, UTF-8
byte length 8) is accepted by the code: `unicode.IsDigit` covers every
Unicode decimal digit and the length bound is in bytes. -/
theorem ValidateZipcode_ascii_counterexample :
    ValidateZipcode
      (String.mk [Char.ofNat 0x0660, Char.ofNat 0x0661, Char.ofNat 0x0662, Char.ofNat 0x0663])
      "origin_zipcode" = none ∧
    ¬ claimAsciiZipFormat
      (String.mk [Char.ofNat 0x0660, Char.ofNat 0x0661, Char.ofNat 0x0662, Char.ofNat 0x0663]) :=
  ⟨rfl, by decide⟩

/-- C5 (amended): `ValidateZipcode s f` succeeds exactly when the
normalized string (hyphens and spaces removed) has UTF-8 byte length
between 4 and 8 and every character is a Unicode decimal digit in the
sense of Go's `unicode.IsDigit` (ASCII digits are the intended case,
but any `Nd` digit is accepted and length is counted in bytes); it
fails with `"<fieldName> is required"` when `s` is empty, and with
`"<fieldName> must be a valid zipcode format (4-8 digits)"` when the
normalized string has byte length outside 4-8 or a non-digit
character. -/
theorem ValidateZipcode_spec (s f : String) :
    (ValidateZipcode s f = none ↔
      (minZipcodeLength ≤ goStrLen (normalizeZip s) ∧
        goStrLen (normalizeZip s) ≤ zipcodeLength ∧
        (normalizeZip s).toList.all goIsDigit = true)) ∧
    (s = "" → ValidateZipcode s f = some (f ++ " is required")) ∧
    (s ≠ "" →
      (goStrLen (normalizeZip s) < minZipcodeLength ∨
        zipcodeLength < goStrLen (normalizeZip s) ∨
        ¬ (normalizeZip s).toList.all goIsDigit = true) →
      ValidateZipcode s f = some (f ++ " must be a valid zipcode format (4-8 digits)")) := by
  by_cases hs : s = ""
  · subst hs
    refine ⟨?_, fun _ => rfl, fun hne _ => absurd rfl hne⟩
    have h0 : goStrLen (normalizeZip "") = 0 := rfl
    simp [ValidateZipcode, h0, minZipcodeLength]
  · unfold ValidateZipcode
    rw [if_neg hs]
    by_cases hlen : goStrLen (normalizeZip s) < minZipcodeLength ∨
        zipcodeLength < goStrLen (normalizeZip s)
    · rw [if_pos hlen]
      refine ⟨?_, fun h => absurd h hs, fun _ _ => rfl⟩
      simp only [minZipcodeLength, zipcodeLength] at *
      constructor
      · intro h; cases h
      · intro h
        rcases hlen with h1 | h1 <;> omega
    · rw [if_neg hlen]
      push_neg at hlen
      by_cases hall : (normalizeZip s).toList.all goIsDigit = true
      · rw [if_pos hall]
        exact ⟨iff_of_true rfl ⟨hlen.1, hlen.2, hall⟩,
          fun h => absurd h hs,
          fun _ hbad => by
            rcases hbad with h1 | h1 | h1
            · exact absurd hlen.1 (not_le.mpr h1)
            · exact absurd hlen.2 (not_le.mpr h1)
            · exact absurd hall h1⟩
      · rw [if_neg hall]
        refine ⟨?_, fun h => absurd h hs, fun _ _ => rfl⟩
        constructor
        · intro h; cases h
        · intro h; exact absurd h.2.2 hall

/-- Witness for the C5 amended theorem: an empty zipcode yields the
"is required" message, a hyphenated all-ASCII zipcode passes, and a
lone KAWI DIGIT ZERO (U+11F50, 4 UTF-8 bytes, `Nd` since Unicode 15.0
as shipped by Go 1.24) passes as well. -/
theorem ValidateZipcode_spec_witness :
    ValidateZipcode "" "origin_zipcode" = some ("origin_zipcode" ++ " is required") ∧
    ValidateZipcode "12345-678" "destination_zipcode" = none ∧
    ValidateZipcode (String.mk [Char.ofNat 0x11f50]) "origin_zipcode" = none :=
  ⟨(ValidateZipcode_spec "" "origin_zipcode").2.1 rfl,
   ((ValidateZipcode_spec "12345-678" "destination_zipcode").1).mpr (by decide),
   ((ValidateZipcode_spec (String.mk [Char.ofNat 0x11f50]) "origin_zipcode").1).mpr (by decide)⟩


/-- Helper: the maximum-volume constant renders as `"15000.00"`. -/
theorem fmt2_maxVolume : fmt2 maxVolumeCm3 = "15000.00" := by
  simp only [fmt2, maxVolumeCm3]
  norm_num
  rfl

/-- C6: `ValidateDimensions` checks, in order, `length ≤ 0`,
`width ≤ 0`, `height ≤ 0`, then `volume > 15000`, returning only the
first failing check's message (the volume message carrying the volume
formatted to two decimal places), and succeeds exactly when all three
dimensions are positive and the volume is at most `15000`. -/
theorem ValidateDimensions_spec (l w h : ℚ) :
    (l ≤ 0 → ValidateDimensions l w h = some "dimensions.length must be positive") ∧
    (0 < l → w ≤ 0 → ValidateDimensions l w h = some "dimensions.width must be positive") ∧
    (0 < l → 0 < w → h ≤ 0 → ValidateDimensions l w h = some "dimensions.height must be positive") ∧
    (0 < l → 0 < w → 0 < h → maxVolumeCm3 < l * w * h →
      ValidateDimensions l w h = some ("package volume (" ++ fmt2 (l * w * h) ++
        " cm³) exceeds maximum allowed volume (15000.00 cm³)")) ∧
    (ValidateDimensions l w h = none ↔ (0 < l ∧ 0 < w ∧ 0 < h ∧ l * w * h ≤ maxVolumeCm3)) := by
  refine ⟨?_, ?_, ?_, ?_, ?_⟩
  · intro h1
    unfold ValidateDimensions
    rw [if_pos h1]
  · intro h1 h2
    unfold ValidateDimensions
    rw [if_neg (not_le.mpr h1), if_pos h2]
  · intro h1 h2 h3
    unfold ValidateDimensions
    rw [if_neg (not_le.mpr h1), if_neg (not_le.mpr h2), if_pos h3]
  · intro h1 h2 h3 h4
    unfold ValidateDimensions
    rw [if_neg (not_le.mpr h1), if_neg (not_le.mpr h2), if_neg (not_le.mpr h3)]
    simp only [gt_iff_lt, if_pos h4, fmt2_maxVolume, String.append_assoc]
    rw [show (" cm³) exceeds maximum allowed volume (" ++ ("15000.00" ++ " cm³)") : String) =
      " cm³) exceeds maximum allowed volume (15000.00 cm³)" from rfl]
  · unfold ValidateDimensions
    dsimp only
    split_ifs with h1 h2 h3 h4
    · exact iff_of_false (by simp) (fun hc => absurd h1 (not_le.mpr hc.1))
    · exact iff_of_false (by simp) (fun hc => absurd h2 (not_le.mpr hc.2.1))
    · exact iff_of_false (by simp) (fun hc => absurd h3 (not_le.mpr hc.2.2.1))
    · exact iff_of_false (by simp) (fun hc => absurd h4 (not_lt.mpr hc.2.2.2))
    · push_neg at h1 h2 h3 h4
      exact iff_of_true rfl ⟨h1, h2, h3, h4⟩

/-- Witness for C6 at dimensions 30 × 30 × 20 (volume 18000 cm³),
the spec's own example. -/
theorem ValidateDimensions_spec_witness :
    ValidateDimensions 30 30 20 = some ("package volume (" ++ fmt2 (30 * 30 * 20) ++
      " cm³) exceeds maximum allowed volume (15000.00 cm³)") :=
  (ValidateDimensions_spec 30 30 20).2.2.2.1 (by norm_num) (by norm_num) (by norm_num)
    (by norm_num [maxVolumeCm3])


/-- C4: `CalculateShipping` validates origin zipcode, destination
zipcode, weight and dimensions in that order, short-circuits on the
first failure with the failing validator's message under the matching
`invalid <field>: ` prefix (and no response), and produces a response
exactly when all four validations pass. -/
theorem CalculateShipping_spec (req : CalculateShippingRequest) :
    (∀ e, ValidateZipcode req.originZipcode "origin_zipcode" = some e →
      CalculateShipping req = Except.error ("invalid origin_zipcode: " ++ e)) ∧
    (ValidateZipcode req.originZipcode "origin_zipcode" = none →
      ∀ e, ValidateZipcode req.destinationZipcode "destination_zipcode" = some e →
      CalculateShipping req = Except.error ("invalid destination_zipcode: " ++ e)) ∧
    (ValidateZipcode req.originZipcode "origin_zipcode" = none →
      ValidateZipcode req.destinationZipcode "destination_zipcode" = none →
      ∀ e, ValidateWeight req.weight = some e →
      CalculateShipping req = Except.error ("invalid weight: " ++ e)) ∧
    (ValidateZipcode req.originZipcode "origin_zipcode" = none →
      ValidateZipcode req.destinationZipcode "destination_zipcode" = none →
      ValidateWeight req.weight = none →
      ∀ e, ValidateDimensions req.dimensions.length req.dimensions.width
        req.dimensions.height = some e →
      CalculateShipping req = Except.error ("invalid dimensions: " ++ e)) ∧
    ((∃ r, CalculateShipping req = Except.ok r) ↔
      (ValidateZipcode req.originZipcode "origin_zipcode" = none ∧
       ValidateZipcode req.destinationZipcode "destination_zipcode" = none ∧
       ValidateWeight req.weight = none ∧
       ValidateDimensions req.dimensions.length req.dimensions.width
         req.dimensions.height = none)) := by
  refine ⟨?_, ?_, ?_, ?_, ?_⟩
  · intro e he
    simp only [CalculateShipping, he]
  · intro h1 e he
    simp only [CalculateShipping, h1, he]
  · intro h1 h2 e he
    simp only [CalculateShipping, h1, h2, he]
  · intro h1 h2 h3 e he
    simp only [CalculateShipping, h1, h2, h3, he]
  · cases h1 : ValidateZipcode req.originZipcode "origin_zipcode" <;>
      cases h2 : ValidateZipcode req.destinationZipcode "destination_zipcode" <;>
        cases h3 : ValidateWeight req.weight <;>
          cases h4 : ValidateDimensions req.dimensions.length req.dimensions.width
              req.dimensions.height <;>
            simp [CalculateShipping, h1, h2, h3, h4]

/-- Witness for C4: a request with an empty origin zipcode fails with
the origin prefix and the validator's "is required" message. -/
theorem CalculateShipping_spec_witness :
    CalculateShipping ⟨"", "12345678", 1, ⟨10, 10, 10⟩, false⟩ =
      Except.error ("invalid origin_zipcode: " ++ "origin_zipcode is required") :=
  (CalculateShipping_spec ⟨"", "12345678", 1, ⟨10, 10, 10⟩, false⟩).1
    "origin_zipcode is required" rfl


/-- Helper: a successful `CalculateShipping` result is exactly the
assembled response for the breakdown the pipeline computes. -/
theorem CalculateShipping_ok_eq (req : CalculateShippingRequest)
    (resp : CalculateShippingResponse) (hok : CalculateShipping req = Except.ok resp) :
    resp = buildResponse
      (calculateShippingDetails (calculateBaseCost req.originZipcode req.destinationZipcode)
        req.weight
        (CalculateVolume req.dimensions.length req.dimensions.width req.dimensions.height)
        req.isExpress)
      req.isExpress := by
  cases h1 : ValidateZipcode req.originZipcode "origin_zipcode" <;>
    cases h2 : ValidateZipcode req.destinationZipcode "destination_zipcode" <;>
      cases h3 : ValidateWeight req.weight <;>
        cases h4 : ValidateDimensions req.dimensions.length req.dimensions.width
            req.dimensions.height <;>
          simp_all [CalculateShipping]

/-- C3: for every expedited request that passes validation, the
assembled response's shipping cost (the assembler's recomputed
`standardCost * 1.5`) equals the breakdown's independently derived
total cost (`subtotal + subtotal * 0.5`). -/
theorem expressCost_consistency (req : CalculateShippingRequest)
    (resp : CalculateShippingResponse) (hexp : req.isExpress = true)
    (hok : CalculateShipping req = Except.ok resp) :
    resp.shippingCost =
      (calculateShippingDetails (calculateBaseCost req.originZipcode req.destinationZipcode)
        req.weight
        (CalculateVolume req.dimensions.length req.dimensions.width req.dimensions.height)
        true).totalCost := by
  rw [CalculateShipping_ok_eq req resp hok, hexp]
  simp [buildResponse, calculateShippingDetails, expressSurchargeRate]
  ring

/-- Witness for C3 on a concrete expedited request. -/
theorem expressCost_consistency_witness :
    (buildResponse
      (calculateShippingDetails (calculateBaseCost "12345678" "12345678") 1
        (CalculateVolume 10 10 10) true) true).shippingCost =
    (calculateShippingDetails (calculateBaseCost "12345678" "12345678") 1
      (CalculateVolume 10 10 10) true).totalCost :=
  expressCost_consistency ⟨"12345678", "12345678", 1, ⟨10, 10, 10⟩, true⟩ _ rfl (by
    unfold CalculateShipping
    rw [show ValidateZipcode "12345678" "origin_zipcode" = none from rfl,
        show ValidateZipcode "12345678" "destination_zipcode" = none from rfl,
        show ValidateWeight 1 = none from rfl,
        show ValidateDimensions 10 10 10 = none from by
          norm_num [ValidateDimensions, maxVolumeCm3]])

/-- C7: every response of a validated request offers exactly the two
services "standard" then "express", both in `availableServices` and as
the two ordered entries of `shippingOptions`, for either value of the
expedited flag. -/
theorem responseOptions_spec (req : CalculateShippingRequest)
    (resp : CalculateShippingResponse) (hok : CalculateShipping req = Except.ok resp) :
    resp.availableServices = ["standard", "express"] ∧
    resp.shippingOptions.map ShippingOption.service = ["standard", "express"] := by
  rw [CalculateShipping_ok_eq req resp hok]
  cases req.isExpress <;> simp [buildResponse]

/-- Witness for C7 on a concrete standard request. -/
theorem responseOptions_spec_witness :
    (buildResponse
      (calculateShippingDetails (calculateBaseCost "01000-000" "02000-000") 2
        (CalculateVolume 10 10 10) false) false).availableServices = ["standard", "express"] ∧
    (buildResponse
      (calculateShippingDetails (calculateBaseCost "01000-000" "02000-000") 2
        (CalculateVolume 10 10 10) false) false).shippingOptions.map ShippingOption.service =
      ["standard", "express"] :=
  responseOptions_spec ⟨"01000-000", "02000-000", 2, ⟨10, 10, 10⟩, false⟩ _ (by
    unfold CalculateShipping
    rw [show ValidateZipcode "01000-000" "origin_zipcode" = none from rfl,
        show ValidateZipcode "02000-000" "destination_zipcode" = none from rfl,
        show ValidateWeight 2 = none from rfl,
        show ValidateDimensions 10 10 10 = none from by
          norm_num [ValidateDimensions, maxVolumeCm3]])

/-- C8: the response's selected shipping cost and delivery time are
those of the requested service — the express option's cost and "1 dia"
when expedited, the standard option's cost and "2 dias" otherwise —
and the options list always renders standard as "2 dias" and express
as "1 dia". -/
theorem responseSelection_spec (req : CalculateShippingRequest)
    (resp : CalculateShippingResponse) (hok : CalculateShipping req = Except.ok resp) :
    resp.shippingOptions.map ShippingOption.time = ["2 dias", "1 dia"] ∧
    resp.estimatedDeliveryTime = (if req.isExpress then "1 dia" else "2 dias") ∧
    some resp.shippingCost =
      ((resp.shippingOptions.get? (if req.isExpress then 1 else 0)).map
        ShippingOption.cost) := by
  rw [CalculateShipping_ok_eq req resp hok]
  cases req.isExpress <;>
    refine ⟨?_, ?_, ?_⟩ <;> simp [buildResponse] <;> decide

/-- Witness for C8 on a concrete standard request. -/
theorem responseSelection_spec_witness :
    (buildResponse
      (calculateShippingDetails (calculateBaseCost "1414" "1428") 1
        (CalculateVolume 5 5 5) false) false).estimatedDeliveryTime =
      (if (false : Bool) then "1 dia" else "2 dias") :=
  (responseSelection_spec ⟨"1414", "1428", 1, ⟨5, 5, 5⟩, false⟩ _ (by
    unfold CalculateShipping
    rw [show ValidateZipcode "1414" "origin_zipcode" = none from rfl,
        show ValidateZipcode "1428" "destination_zipcode" = none from rfl,
        show ValidateWeight 1 = none from rfl,
        show ValidateDimensions 5 5 5 = none from by
          norm_num [ValidateDimensions, maxVolumeCm3]])).2.1

end Shipping
